import Mathlib

/-!
Verification development for the DroneForce functions repository.

The definitions below are a shallow embedding of the JavaScript sources:

* `functions/blockchain-service.js` — `BlockchainService.extractTaskId`,
  `BlockchainService.createMockTransaction`, `BlockchainService.verifyTask`;
* `functions/index.js` — `sendToExternalSystem`, `processLogFileUpload`;
* `firestore.rules` — the declarative access-control rules.

Firestore is modelled as an association list from task ids to task documents.
External collaborators (storage download, file read, provenance insert, object
tagging, the task-store query) are modelled by explicit success/failure flags,
and the nondeterministic inputs of `createMockTransaction` (`Date.now()` and
the base-36 digits of `Math.random().toString(36).substring(2, 7)`) are
explicit parameters.
-/

/-- Task document fields read or written by the pipeline
(`tasks` collection in Firestore). `verificationResult` is `none` when the
field is absent or `null` (the code treats both as unset via
`!== undefined && !== null`). -/
structure TaskData where
  status : String
  completedAt : Nat
  verificationResult : Option Bool
  verificationReportHash : Option String
  verificationTimestamp : Option Nat
  verificationTx : Option String
deriving DecidableEq, Repr

/-- Result object returned by `verifyTask` / `sendToExternalSystem`
(`success`, `message`, `transactionId`, and on the success path also
`verificationResult`). -/
structure VerifyOutcome where
  success : Bool
  message : String
  transactionId : Option String
  verificationResult : Option Bool
deriving DecidableEq, Repr

/-- The `tasks` collection: an association list from document id to data. -/
def FsState : Type := List (String × TaskData)

instance : DecidableEq FsState := by
  unfold FsState
  infer_instance

/-- Fetch a task document by id (`db.collection('tasks').doc(taskId).get()`). -/
def getTask : FsState → String → Option TaskData
  | [], _ => none
  | (k, v) :: rest, id => if id = k then some v else getTask rest id

/-- Apply an update to the document with the given id
(`db.collection('tasks').doc(taskId).update({...})`). -/
def updateTask (st : FsState) (taskId : String) (f : TaskData → TaskData) : FsState :=
  st.map (fun p => if p.1 = taskId then (p.1, f p.2) else p)

/-- Character for one base-36 digit, as produced by JavaScript
`Number.prototype.toString(36)`: `0`-`9` then lowercase `a`-`z`. -/
def base36DigitChar (d : Nat) : Char :=
  if d < 10 then Char.ofNat (48 + d) else Char.ofNat (87 + d)

/-- Little-endian base-36 digits of `n`, with explicit fuel so the
definition is structurally recursive. -/
def b36Aux : Nat → Nat → List Nat
  | _, 0 => []
  | 0, _ + 1 => []
  | fuel + 1, n + 1 => ((n + 1) % 36) :: b36Aux fuel ((n + 1) / 36)

/-- Little-endian base-36 digits of `n` (empty for `0`). -/
def digits36 (n : Nat) : List Nat := b36Aux n n

/-- JavaScript `n.toString(36)` for a natural number `n`. -/
def toBase36 (n : Nat) : String :=
  if n = 0 then "0" else String.mk (((digits36 n).map base36DigitChar).reverse)

/-- The `DEBUG_MODE` constant of `blockchain-service.js`. -/
def DEBUG_MODE : Bool := true

/-- Model of `BlockchainService.createMockTransaction`: the id is
`MOCK_TX_` + `Date.now().toString(36)` + `_` + the random suffix
(`Math.random().toString(36).substring(2, 7)`, modelled as the list of its
base-36 digit values). The `taskId`, `result` and `reportHash` arguments are
ignored, exactly as in the source. -/
def createMockTransaction (taskId : String) (result : Bool) (reportHash : String)
    (now : Nat) (rand : List Nat) : String :=
  "MOCK_TX_" ++ toBase36 now ++ "_" ++ String.mk (rand.map base36DigitChar)

/-- Second half of `BlockchainService.verifyTask`: everything after the
`get()` of the task document. The gates are evaluated on the `snapshot`
that was read, while the `update` is applied to the state `st` current at
write time — in the sequential code the two coincide
(see `verifyTask`), but under interleaving they can differ.
The third component records whether a settlement
(`createMockTransaction`) was performed. -/
def verifyTaskFinish (st : FsState) (snapshot : Option TaskData) (now : Nat)
    (rand : List Nat) (serverTime : Nat) (taskId : String)
    (verificationResult : Bool) (verificationReportHash : String) :
    VerifyOutcome × FsState × Bool :=
  match snapshot with
  | none =>
    -- `throw new Error('Task not found: ...')`, caught by the surrounding catch
    (⟨false, "Error verifying task: Task not found", none, none⟩, st, false)
  | some task =>
    if task.status ≠ "completed" then
      -- `throw new Error('Task must be completed before verification...')`
      (⟨false, "Error verifying task: Task must be completed before verification",
        none, none⟩, st, false)
    else
      match task.verificationResult with
      | some _ =>
        (⟨false, "Task has already been verified", none, none⟩, st, false)
      | none =>
        let transactionId :=
          if DEBUG_MODE then
            createMockTransaction taskId verificationResult verificationReportHash now rand
          else "NOT_IMPLEMENTED_YET"
        let st' := updateTask st taskId (fun t =>
          { t with
            status := if verificationResult then "verified" else "rejected",
            verificationResult := some verificationResult,
            verificationReportHash := some verificationReportHash,
            verificationTimestamp := some serverTime,
            verificationTx := some transactionId })
        (⟨true, "Task verified successfully", some transactionId,
          some verificationResult⟩, st', DEBUG_MODE)

/-- Model of `BlockchainService.verifyTask` (with Firestore and admin
available): read the task document, then run the gates and the update. -/
def verifyTask (st : FsState) (now : Nat) (rand : List Nat) (serverTime : Nat)
    (taskId : String) (verificationResult : Bool) (verificationReportHash : String) :
    VerifyOutcome × FsState × Bool :=
  verifyTaskFinish st (getTask st taskId) now rand serverTime taskId
    verificationResult verificationReportHash

/-- Alphanumeric test matching the character class `[a-zA-Z0-9]` of the
regular expression in `extractTaskId`. -/
def isAlnum (c : Char) : Bool :=
  ('a' ≤ c && c ≤ 'z') || ('A' ≤ c && c ≤ 'Z') || ('0' ≤ c && c ≤ '9')

/-- Greedy capture of `[a-zA-Z0-9]+` after a successful first character. -/
def takeAlnum : List Char → List Char
  | [] => []
  | c :: cs => if isAlnum c then c :: takeAlnum cs else []

/-- Try the pattern `task-[a-zA-Z0-9]+` anchored at this position; on success
return the captured (maximal) alphanumeric token. -/
def matchTaskAt : List Char → Option (List Char)
  | 't' :: 'a' :: 's' :: 'k' :: '-' :: c :: rest =>
    if isAlnum c then some (c :: takeAlnum rest) else none
  | _ => none

/-- Leftmost match of `/task-([a-zA-Z0-9]+)/` in the character list, i.e. the
first position where the whole pattern matches, with the captured group. -/
def findTaskIdMatch : List Char → Option (List Char)
  | [] => none
  | c :: rest =>
    match matchTaskAt (c :: rest) with
    | some tok => some tok
    | none => findTaskIdMatch rest

/-- JavaScript truthiness of `metadata.taskId`: a present, non-empty string. -/
def truthyMeta : Option String → Bool
  | none => false
  | some s => !(s == "")

/-- The task-store collaborator as seen by `extractTaskId`: its `tasks`
collection, plus a flag modelling the query throwing an error. -/
structure Db where
  tasks : List (String × TaskData)
  queryFails : Bool

/-- The Firestore query
`where('status','==','completed').orderBy('completedAt','desc').limit(1)`:
the id of the completed task with the greatest `completedAt`
(first in collection order on ties), or `none` when no completed task exists. -/
def queryMostRecentCompleted (tasks : List (String × TaskData)) : Option String :=
  match tasks.filter (fun p => p.2.status == "completed") with
  | [] => none
  | p :: ps =>
    some ((ps.foldl (fun best q =>
      if q.2.completedAt > best.2.completedAt then q else best) p).1)

/-- Model of `BlockchainService.extractTaskId`: metadata task id first, then
the path pattern, then the most-recent-completed-task query (`none` when
Firestore is unavailable, the query throws, or no completed task exists). -/
def extractTaskId (filePath : String) (metadataTaskId : Option String)
    (db : Option Db) : Option String :=
  if truthyMeta metadataTaskId then metadataTaskId
  else
    match findTaskIdMatch filePath.data with
    | some tok => some (String.mk tok)
    | none =>
      match db with
      | none => none
      | some d =>
        -- a query error is caught by the surrounding try/catch, which returns null
        if d.queryFails then none
        else queryMostRecentCompleted d.tasks

/-- Model of `sendToExternalSystem` of `functions/index.js`: resolve the task
id against the same Firestore state, then call `verifyTask` with the
hardcoded verification result `true`. -/
def sendToExternalSystem (st : FsState) (now : Nat) (rand : List Nat)
    (serverTime : Nat) (fileHash : String) (filePath : String)
    (metadataTaskId : Option String) (queryFails : Bool) :
    VerifyOutcome × FsState × Bool :=
  match extractTaskId filePath metadataTaskId (some ⟨st, queryFails⟩) with
  | none =>
    (⟨false, "Could not determine task ID for verification", none, none⟩, st, false)
  | some taskId =>
    -- Always verify as successful for this proof of concept
    verifyTask st now rand serverTime taskId true fileHash

deriving instance DecidableEq for Except

/-- Decide whether pattern `p` is an initial segment of `s`
(JavaScript `s.startsWith(p)` on the character lists). -/
def leadsWith : List Char → List Char → Bool
  | [], _ => true
  | _ :: _, [] => false
  | a :: as, b :: bs => a == b && leadsWith as bs

/-- Outcome flags of the external collaborators used by
`processLogFileUpload`: does the storage download succeed, does reading the
temp file succeed, does the provenance insert succeed, does the object
tagging (`file.setMetadata`) succeed; plus the hash the digest step yields. -/
structure HandlerEnv where
  downloadOk : Bool
  readOk : Bool
  persistOk : Bool
  tagOk : Bool
  fileHash : String
deriving DecidableEq, Repr

/-- Observable effects of one invocation of `processLogFileUpload`:
whether a temp copy was created, whether it still exists when the invocation
ends, whether the provenance record was written, whether the source object
was tagged, and whether `sendToExternalSystem` was reached. -/
structure HandlerEffects where
  downloaded : Bool
  tempExists : Bool
  provenanceWritten : Bool
  tagged : Bool
  verificationCalled : Bool
deriving DecidableEq, Repr

/-- The try block of `processLogFileUpload` after the `logs/` filter:
download, hash, provenance insert, object tagging, verification, then
`fs.unlinkSync` of the temp file. An error at any step aborts the block
with the temp-file state at that point. -/
def uploadTryBody (env : HandlerEnv) : Except String String × HandlerEffects :=
  if env.downloadOk = false then
    (Except.error "download failed", ⟨false, false, false, false, false⟩)
  else if env.readOk = false then
    (Except.error "read failed", ⟨true, true, false, false, false⟩)
  else if env.persistOk = false then
    (Except.error "provenance write failed", ⟨true, true, false, false, false⟩)
  else if env.tagOk = false then
    (Except.error "tagging failed", ⟨true, true, true, false, false⟩)
  else
    (Except.ok env.fileHash, ⟨true, false, true, true, true⟩)

/-- Model of the `processLogFileUpload` cloud function: skip objects outside
`logs/`; otherwise run the try block, and on error run the catch block —
delete the temp file if it exists, then rethrow. The first component is the
invocation result (`Except.error` = the function threw). -/
def processLogFileUpload (objectName : String) (env : HandlerEnv) :
    Except String (Option String) × HandlerEffects :=
  if leadsWith "logs/".data objectName.data = false then
    (Except.ok none, ⟨false, false, false, false, false⟩)
  else
    match uploadTryBody env with
    | (Except.ok h, eff) => (Except.ok (some h), eff)
    | (Except.error e, eff) =>
      (Except.error e,
        if eff.tempExists then { eff with tempExists := false } else eff)

/-- Path pattern of a `match` clause in the rules file: a literal segment
followed by more pattern, or the recursive wildcard `{name=**}` (which in
rules version 2 matches zero or more remaining segments). -/
inductive RulePath where
  | seg (s : String) (rest : RulePath)
  | recWild
deriving DecidableEq, Repr

/-- Request data consulted by the rule conditions. -/
structure RuleReq where
  auth : Bool
deriving DecidableEq, Repr

/-- The conditions appearing in the rules file: `request.auth != null`
and the literal `false`. -/
inductive RuleCond where
  | authNotNull
  | constFalse
deriving DecidableEq, Repr

/-- One `allow read, write: if <cond>;` clause under a `match <path>`. -/
structure AllowRule where
  path : RulePath
  readCond : RuleCond
  writeCond : RuleCond
deriving DecidableEq, Repr

/-- Operation kind of a rules request. -/
inductive AccessOp where
  | read
  | write
deriving DecidableEq, Repr

/-- Match a rule path pattern against a document path (segments below
`/databases/{database}/documents`). -/
def RulePath.matches : RulePath → List String → Bool
  | .seg s r, x :: xs => s == x && r.matches xs
  | .seg _ _, [] => false
  | .recWild, _ => true

/-- Evaluate a rule condition on a request. -/
def RuleCond.eval : RuleCond → RuleReq → Bool
  | .authNotNull, r => r.auth
  | .constFalse, _ => false

/-- Firestore rules semantics: a request is allowed when some matching
rule's condition for the operation evaluates to true. -/
def allows (rules : List AllowRule) (req : RuleReq) (p : List String)
    (op : AccessOp) : Bool :=
  rules.any fun r =>
    r.path.matches p &&
      (match op with
       | .read => r.readCond
       | .write => r.writeCond).eval req

/-- The two rules of `firestore.rules`:
`match /file_hashes/{document=**} { allow read, write: if request.auth != null; }`
and the default-deny `match /{document=**} { allow read, write: if false; }`. -/
def firestoreRules : List AllowRule :=
  [⟨.seg "file_hashes" .recWild, .authNotNull, .authNotNull⟩,
   ⟨.recWild, .constFalse, .constFalse⟩]

/-- Value of a base-36 digit list (little-endian). -/
def ofB36 : List Nat → Nat
  | [] => 0
  | d :: ds => d + 36 * ofB36 ds

/-- Eligible task used by the race counterexample for C2. -/
def raceTask : TaskData := ⟨"completed", 0, none, none, none, none⟩

/-! Helper lemmas. -/

theorem getTask_cons (a : String) (b : TaskData) (rest : FsState) (i : String) :
    getTask ((a, b) :: rest) i = if i = a then some b else getTask rest i := rfl

theorem updateTask_cons (a : String) (b : TaskData) (rest : FsState) (k : String)
    (f : TaskData → TaskData) :
    updateTask ((a, b) :: rest) k f =
      (if a = k then (a, f b) else (a, b)) :: updateTask rest k f := rfl

theorem getTask_updateTask (st : FsState) (k : String) (f : TaskData → TaskData)
    (i : String) :
    getTask (updateTask st k f) i =
      if i = k then (getTask st k).map f else getTask st i := by
  induction st with
  | nil => simp [getTask, updateTask]
  | cons p rest ih =>
    obtain ⟨a, b⟩ := p
    rw [updateTask_cons]
    by_cases hak : a = k
    · subst hak
      rw [if_pos rfl]
      by_cases hia : i = a
      · subst hia
        simp [getTask_cons]
      · simp [getTask_cons, hia, ih]
    · rw [if_neg hak]
      by_cases hia : i = a
      · subst hia
        simp [getTask_cons, hak]
      · simp [getTask_cons, hia, ih, Ne.symm hak]

theorem ofB36_b36Aux : ∀ fuel n, n ≤ fuel → ofB36 (b36Aux fuel n) = n := by
  intro fuel
  induction fuel with
  | zero =>
    intro n hn
    interval_cases n
    simp [b36Aux, ofB36]
  | succ f ih =>
    intro n hn
    match n with
    | 0 => simp [b36Aux, ofB36]
    | m + 1 =>
      have hdiv : (m + 1) / 36 ≤ f := by
        have h1 : (m + 1) / 36 < m + 1 := Nat.div_lt_self (Nat.succ_pos m) (by omega)
        omega
      simp only [b36Aux, ofB36, ih _ hdiv]
      omega

theorem digits36_inj {m n : Nat} (h : digits36 m = digits36 n) : m = n := by
  have hm := ofB36_b36Aux m m (Nat.le_refl m)
  have hn := ofB36_b36Aux n n (Nat.le_refl n)
  unfold digits36 at h
  rw [← hm, ← hn, h]

theorem b36Aux_lt : ∀ fuel n, ∀ d ∈ b36Aux fuel n, d < 36 := by
  intro fuel
  induction fuel with
  | zero =>
    intro n d hd
    match n with
    | 0 => simp [b36Aux] at hd
    | _ + 1 => simp [b36Aux] at hd
  | succ f ih =>
    intro n d hd
    match n with
    | 0 => simp [b36Aux] at hd
    | m + 1 =>
      simp only [b36Aux, List.mem_cons] at hd
      rcases hd with h | h
      · subst h
        exact Nat.mod_lt _ (by omega)
      · exact ih _ _ h

theorem base36DigitChar_inj :
    ∀ a : Nat, a < 36 → ∀ b : Nat, b < 36 →
      base36DigitChar a = base36DigitChar b → a = b := by decide

theorem base36DigitChar_ne_underscore :
    ∀ a : Nat, a < 36 → base36DigitChar a ≠ '_' := by decide

theorem mapDigitChar_inj :
    ∀ l₁ l₂ : List Nat, (∀ d ∈ l₁, d < 36) → (∀ d ∈ l₂, d < 36) →
      l₁.map base36DigitChar = l₂.map base36DigitChar → l₁ = l₂ := by
  intro l₁
  induction l₁ with
  | nil =>
    intro l₂ _ _ h
    cases l₂ with
    | nil => rfl
    | cons b bs => simp at h
  | cons a as ih =>
    intro l₂ h₁ h₂ h
    cases l₂ with
    | nil => simp at h
    | cons b bs =>
      simp only [List.map_cons, List.cons.injEq] at h
      have ha : a < 36 := h₁ a (by simp)
      have hb : b < 36 := h₂ b (by simp)
      have hab : a = b := base36DigitChar_inj a ha b hb h.1
      have hrest : as = bs :=
        ih bs (fun d hd => h₁ d (by simp [hd])) (fun d hd => h₂ d (by simp [hd])) h.2
      rw [hab, hrest]

theorem strDataInj : ∀ {s t : String}, s.data = t.data → s = t := by
  rintro ⟨a⟩ ⟨b⟩ h
  simp only [String.data] at h
  rw [h]

theorem strDataAppend (s t : String) : (s ++ t).data = s.data ++ t.data := by
  cases s
  cases t
  rfl

theorem underscore_not_mem_toBase36 (n : Nat) : '_' ∉ (toBase36 n).data := by
  by_cases h : n = 0
  · subst h
    simp only [toBase36]
    decide
  · simp only [toBase36, h, if_false]
    intro hmem
    rw [List.mem_reverse, List.mem_map] at hmem
    obtain ⟨d, hd, hchar⟩ := hmem
    exact base36DigitChar_ne_underscore d (b36Aux_lt n n d hd) hchar

theorem toBase36_inj {m n : Nat} (h : toBase36 m = toBase36 n) : m = n := by
  have hdata := congrArg String.data h
  by_cases hm : m = 0 <;> by_cases hn : n = 0
  · omega
  · exfalso
    simp only [toBase36, hm, hn, if_true, if_false] at hdata
    have : ('0' : Char) ∈ (((digits36 n).map base36DigitChar).reverse : List Char) := by
      rw [← hdata]
      decide
    rw [List.mem_reverse, List.mem_map] at this
    obtain ⟨d, hd, hchar⟩ := this
    have hd36 : d < 36 := b36Aux_lt n n d hd
    have hd0 : d = 0 := by
      have : base36DigitChar 0 = '0' := by decide
      exact base36DigitChar_inj d hd36 0 (by omega) (by rw [hchar, this])
    subst hd0
    -- digits of the nonzero n contain the digit 0 at the head only when
    -- the reconstructed value analysis below fails; derive n = 0 directly
    have hrt := ofB36_b36Aux n n (Nat.le_refl n)
    have hlen : (((digits36 n).map base36DigitChar).reverse : List Char).length = 1 := by
      rw [← hdata]
      decide
    simp only [List.length_reverse, List.length_map] at hlen
    unfold digits36 at hd hrt hlen
    match hmatch : b36Aux n n with
    | [] => rw [hmatch] at hd; simp at hd
    | [x] =>
      rw [hmatch] at hd hrt
      simp only [List.mem_singleton] at hd
      subst hd
      simp [ofB36] at hrt
      omega
    | x :: y :: rest => rw [hmatch] at hlen; simp at hlen
  · exfalso
    simp only [toBase36, hm, hn, if_true, if_false] at hdata
    have : ('0' : Char) ∈ (((digits36 m).map base36DigitChar).reverse : List Char) := by
      rw [hdata]
      decide
    rw [List.mem_reverse, List.mem_map] at this
    obtain ⟨d, hd, hchar⟩ := this
    have hd36 : d < 36 := b36Aux_lt m m d hd
    have hd0 : d = 0 := by
      have h0 : base36DigitChar 0 = '0' := by decide
      exact base36DigitChar_inj d hd36 0 (by omega) (by rw [hchar, h0])
    subst hd0
    have hrt := ofB36_b36Aux m m (Nat.le_refl m)
    have hlen : (((digits36 m).map base36DigitChar).reverse : List Char).length = 1 := by
      rw [hdata]
      decide
    simp only [List.length_reverse, List.length_map] at hlen
    unfold digits36 at hd hrt hlen
    match hmatch : b36Aux m m with
    | [] => rw [hmatch] at hd; simp at hd
    | [x] =>
      rw [hmatch] at hd hrt
      simp only [List.mem_singleton] at hd
      subst hd
      simp [ofB36] at hrt
      omega
    | x :: y :: rest => rw [hmatch] at hlen; simp at hlen
  · simp only [toBase36, hm, hn, if_false] at hdata
    apply digits36_inj
    apply mapDigitChar_inj _ _ (b36Aux_lt m m) (b36Aux_lt n n)
    have := strDataInj hdata
    have hrev := congrArg List.reverse (congrArg String.data this)
    simpa using hrev

theorem splitAtSep :
    ∀ (a₁ : List Char) (b₁ : List Char) (a₂ : List Char) (b₂ : List Char),
      '_' ∉ a₁ → '_' ∉ a₂ →
      a₁ ++ '_' :: b₁ = a₂ ++ '_' :: b₂ → a₁ = a₂ ∧ b₁ = b₂ := by
  intro a₁
  induction a₁ with
  | nil =>
    intro b₁ a₂ b₂ _ h₂ h
    cases a₂ with
    | nil => simpa using h
    | cons c cs =>
      simp only [List.nil_append, List.cons_append, List.cons.injEq] at h
      exfalso
      exact h₂ (by simp [← h.1])
  | cons c cs ih =>
    intro b₁ a₂ b₂ h₁ h₂ h
    cases a₂ with
    | nil =>
      simp only [List.nil_append, List.cons_append, List.cons.injEq] at h
      exfalso
      exact h₁ (by simp [h.1])
    | cons d ds =>
      simp only [List.cons_append, List.cons.injEq] at h
      have := ih b₁ ds b₂ (fun hm => h₁ (by simp [hm])) (fun hm => h₂ (by simp [hm])) h.2
      exact ⟨by rw [h.1, this.1], this.2⟩

/-! Claim theorems. -/

/-- C1: for every task whose `verificationResult` is already set, a run of
`verifyTask` returns `success = false` with `transactionId = null`, performs
no settlement, and leaves the task store completely unmodified. -/
theorem verifyTask_already_verified_is_noop
    (st : FsState) (now : Nat) (rand : List Nat) (serverTime : Nat)
    (taskId : String) (res : Bool) (hash : String) (t : TaskData) (b : Bool)
    (hget : getTask st taskId = some t)
    (hvr : t.verificationResult = some b) :
    (verifyTask st now rand serverTime taskId res hash).1.success = false ∧
    (verifyTask st now rand serverTime taskId res hash).1.transactionId = none ∧
    (verifyTask st now rand serverTime taskId res hash).2.1 = st ∧
    (verifyTask st now rand serverTime taskId res hash).2.2 = false := by
  simp only [verifyTask, verifyTaskFinish, hget]
  by_cases hs : t.status = "completed"
  · simp [hs, hvr]
  · simp [hs]

theorem verifyTask_already_verified_is_noop_witness :
    (verifyTask [("T1", ⟨"completed", 3, some true, some "h", some 1, some "tx"⟩)]
        5 [1] 9 "T1" true "h2").1.success = false ∧
    (verifyTask [("T1", ⟨"completed", 3, some true, some "h", some 1, some "tx"⟩)]
        5 [1] 9 "T1" true "h2").1.transactionId = none ∧
    (verifyTask [("T1", ⟨"completed", 3, some true, some "h", some 1, some "tx"⟩)]
        5 [1] 9 "T1" true "h2").2.1 =
      [("T1", ⟨"completed", 3, some true, some "h", some 1, some "tx"⟩)] ∧
    (verifyTask [("T1", ⟨"completed", 3, some true, some "h", some 1, some "tx"⟩)]
        5 [1] 9 "T1" true "h2").2.2 = false :=
  verifyTask_already_verified_is_noop
    [("T1", ⟨"completed", 3, some true, some "h", some 1, some "tx"⟩)]
    5 [1] 9 "T1" true "h2"
    ⟨"completed", 3, some true, some "h", some 1, some "tx"⟩ true
    (by decide) (by decide)

/-- C4: running `verifyTask` on a task whose status is not `completed`
(e.g. `pending`) yields a rejected outcome (`success = false`,
`transactionId = null`) with no task mutation and no settlement. -/
theorem verifyTask_not_completed_is_noop
    (st : FsState) (now : Nat) (rand : List Nat) (serverTime : Nat)
    (taskId : String) (res : Bool) (hash : String) (t : TaskData)
    (hget : getTask st taskId = some t)
    (hs : t.status ≠ "completed") :
    (verifyTask st now rand serverTime taskId res hash).1.success = false ∧
    (verifyTask st now rand serverTime taskId res hash).1.transactionId = none ∧
    (verifyTask st now rand serverTime taskId res hash).2.1 = st ∧
    (verifyTask st now rand serverTime taskId res hash).2.2 = false := by
  simp only [verifyTask, verifyTaskFinish, hget]
  simp [hs]

theorem verifyTask_not_completed_is_noop_witness :
    (verifyTask [("T1", ⟨"pending", 0, none, none, none, none⟩)]
        5 [1] 9 "T1" true "h2").1.success = false ∧
    (verifyTask [("T1", ⟨"pending", 0, none, none, none, none⟩)]
        5 [1] 9 "T1" true "h2").1.transactionId = none ∧
    (verifyTask [("T1", ⟨"pending", 0, none, none, none, none⟩)]
        5 [1] 9 "T1" true "h2").2.1 =
      [("T1", ⟨"pending", 0, none, none, none, none⟩)] ∧
    (verifyTask [("T1", ⟨"pending", 0, none, none, none, none⟩)]
        5 [1] 9 "T1" true "h2").2.2 = false :=
  verifyTask_not_completed_is_noop
    [("T1", ⟨"pending", 0, none, none, none, none⟩)]
    5 [1] 9 "T1" true "h2"
    ⟨"pending", 0, none, none, none, none⟩
    (by decide) (by decide)

/-- C2 counterexample: the eligibility check and the terminal update are not
one compare-and-set. `verifyTask` is the composition of a read
(`verifyTaskRead` = `getTask`) and the rest (`verifyTaskFinish`); when two
orchestrations both read the same eligible task before either writes
(schedule read1, read2, write1, write2), both pass the gate, both settle,
and both return `success = true` — the second blindly overwrites the first,
contradicting "exactly one reaches Recorded and the other returns Rejected
without a second settlement". -/
theorem verifyTask_race_both_settle :
    (verifyTaskFinish [("T1", raceTask)] (getTask [("T1", raceTask)] "T1")
        0 [1] 2 "T1" true "hA").1.success = true ∧
    (verifyTaskFinish [("T1", raceTask)] (getTask [("T1", raceTask)] "T1")
        0 [1] 2 "T1" true "hA").2.2 = true ∧
    (verifyTaskFinish
        (verifyTaskFinish [("T1", raceTask)] (getTask [("T1", raceTask)] "T1")
          0 [1] 2 "T1" true "hA").2.1
        (getTask [("T1", raceTask)] "T1") 3 [4] 5 "T1" true "hB").1.success = true ∧
    (verifyTaskFinish
        (verifyTaskFinish [("T1", raceTask)] (getTask [("T1", raceTask)] "T1")
          0 [1] 2 "T1" true "hA").2.1
        (getTask [("T1", raceTask)] "T1") 3 [4] 5 "T1" true "hB").2.2 = true := by
  decide

/-- C2 (amended): the check and the update are separate, non-transactional
steps, so the compare-and-set guarantee holds only for sequential
(non-interleaved) executions: once a run of `verifyTask` has settled, a
subsequent run on the resulting state is rejected, settles nothing, and
leaves the state unchanged. -/
theorem verifyTask_sequential_second_run_rejected
    (st : FsState) (n₁ n₂ ts₁ ts₂ : Nat) (r₁ r₂ : List Nat)
    (taskId : String) (res₁ res₂ : Bool) (h₁ h₂ : String)
    (hs : (verifyTask st n₁ r₁ ts₁ taskId res₁ h₁).2.2 = true) :
    (verifyTask (verifyTask st n₁ r₁ ts₁ taskId res₁ h₁).2.1
        n₂ r₂ ts₂ taskId res₂ h₂).1.success = false ∧
    (verifyTask (verifyTask st n₁ r₁ ts₁ taskId res₁ h₁).2.1
        n₂ r₂ ts₂ taskId res₂ h₂).2.2 = false ∧
    (verifyTask (verifyTask st n₁ r₁ ts₁ taskId res₁ h₁).2.1
        n₂ r₂ ts₂ taskId res₂ h₂).2.1 =
      (verifyTask st n₁ r₁ ts₁ taskId res₁ h₁).2.1 := by
  cases hget : getTask st taskId with
  | none => simp [verifyTask, verifyTaskFinish, hget] at hs
  | some t =>
    by_cases hstat : t.status = "completed"
    · cases hvr : t.verificationResult with
      | some b => simp [verifyTask, verifyTaskFinish, hget, hstat, hvr] at hs
      | none =>
        simp only [verifyTask, verifyTaskFinish, hget, hstat, hvr]
        simp only [ne_eq, not_true_eq_false, if_false, ite_false, ite_true]
        rw [getTask_updateTask]
        simp only [if_pos rfl, hget, Option.map_some]
        cases res₁ <;> simp
    · simp [verifyTask, verifyTaskFinish, hget, hstat] at hs

theorem verifyTask_sequential_second_run_rejected_witness :
    (verifyTask (verifyTask [("T1", raceTask)] 0 [1] 2 "T1" true "hA").2.1
        3 [4] 5 "T1" true "hB").1.success = false ∧
    (verifyTask (verifyTask [("T1", raceTask)] 0 [1] 2 "T1" true "hA").2.1
        3 [4] 5 "T1" true "hB").2.2 = false ∧
    (verifyTask (verifyTask [("T1", raceTask)] 0 [1] 2 "T1" true "hA").2.1
        3 [4] 5 "T1" true "hB").2.1 =
      (verifyTask [("T1", raceTask)] 0 [1] 2 "T1" true "hA").2.1 :=
  verifyTask_sequential_second_run_rejected
    [("T1", raceTask)] 0 3 2 5 [1] [4] "T1" true true "hA" "hB" (by decide)

/-- C3: `extractTaskId` obeys the exact precedence: a present non-empty
`metadata.taskId` is returned verbatim (for every task store, hence with no
existence validation); else the captured token of the first
`task-<alphanumeric>` match in the path; else the result of the
most-recent-completed-task query (the id when one exists, otherwise
not-found). -/
theorem extractTaskId_precedence (fp : String) (md : Option String) (d : Db)
    (hq : d.queryFails = false) :
    (∀ s, md = some s → s ≠ "" → ∀ db, extractTaskId fp md db = some s) ∧
    (truthyMeta md = false → ∀ tok, findTaskIdMatch fp.data = some tok →
      extractTaskId fp md (some d) = some (String.mk tok)) ∧
    (truthyMeta md = false → findTaskIdMatch fp.data = none →
      extractTaskId fp md (some d) = queryMostRecentCompleted d.tasks) := by
  refine ⟨?_, ?_, ?_⟩
  · intro s hmd hne db
    subst hmd
    simp [extractTaskId, truthyMeta, hne]
  · intro hmd tok hmatch
    simp [extractTaskId, hmd, hmatch]
  · intro hmd hmatch
    simp [extractTaskId, hmd, hmatch, hq]

theorem extractTaskId_precedence_witness :
    extractTaskId "logs/task-T2-upload.bin" (some "T1")
      (some ⟨[("T9", ⟨"completed", 8, none, none, none, none⟩)], false⟩) =
      some "T1" :=
  (extractTaskId_precedence "logs/task-T2-upload.bin" (some "T1")
      ⟨[("T9", ⟨"completed", 8, none, none, none, none⟩)], false⟩ rfl).1
    "T1" rfl (by decide) _

/-- C7: when the metadata carries no task id, the path does not match, and
the most-recent-completed-task query raises an error, the resolver swallows
the error and returns the not-found result — the same observable result as
when no completed task exists at all. -/
theorem extractTaskId_query_error_swallowed (fp : String) (md : Option String)
    (d : Db) (h1 : truthyMeta md = false)
    (h2 : findTaskIdMatch fp.data = none) (h3 : d.queryFails = true) :
    extractTaskId fp md (some d) = none ∧
    extractTaskId fp md (some d) = extractTaskId fp md (some ⟨[], false⟩) := by
  constructor <;> simp [extractTaskId, h1, h2, h3, queryMostRecentCompleted]

theorem extractTaskId_query_error_swallowed_witness :
    extractTaskId "logs/upload.bin" none
      (some ⟨[("T1", ⟨"completed", 4, none, none, none, none⟩)], true⟩) = none ∧
    extractTaskId "logs/upload.bin" none
      (some ⟨[("T1", ⟨"completed", 4, none, none, none, none⟩)], true⟩) =
      extractTaskId "logs/upload.bin" none (some ⟨[], false⟩) :=
  extractTaskId_query_error_swallowed "logs/upload.bin" none
    ⟨[("T1", ⟨"completed", 4, none, none, none, none⟩)], true⟩
    rfl (by decide) rfl

/-- C5 counterexample: for a `logs/`-object whose provenance write succeeded
but whose source-object tagging fails, the invocation does not proceed to
verification — the tagging error escapes the handler (the invocation
throws), contradicting "logged only, non-fatal". -/
theorem processLogFileUpload_tagging_failure_aborts_cx :
    (processLogFileUpload "logs/f.bin"
        ⟨true, true, true, false, "h"⟩).2.verificationCalled = false ∧
    (processLogFileUpload "logs/f.bin"
        ⟨true, true, true, false, "h"⟩).2.provenanceWritten = true ∧
    (processLogFileUpload "logs/f.bin" ⟨true, true, true, false, "h"⟩).1 =
      Except.error "tagging failed" := by decide

/-- C5 (amended): a failure of the source-object tagging step is fatal to
the invocation even though the provenance record is already durable: the
error propagates out of the handler, task resolution and verification are
never reached, and only the temp-file cleanup of the catch block runs. -/
theorem processLogFileUpload_tagging_failure_fatal (objectName : String)
    (env : HandlerEnv) (hpref : leadsWith "logs/".data objectName.data = true)
    (hd : env.downloadOk = true) (hr : env.readOk = true)
    (hp : env.persistOk = true) (ht : env.tagOk = false) :
    (processLogFileUpload objectName env).1 = Except.error "tagging failed" ∧
    (processLogFileUpload objectName env).2.provenanceWritten = true ∧
    (processLogFileUpload objectName env).2.verificationCalled = false ∧
    (processLogFileUpload objectName env).2.tempExists = false := by
  simp [processLogFileUpload, hpref, uploadTryBody, hd, hr, hp, ht]

theorem processLogFileUpload_tagging_failure_fatal_witness :
    (processLogFileUpload "logs/f2.bin" ⟨true, true, true, false, "h9"⟩).1 =
      Except.error "tagging failed" ∧
    (processLogFileUpload "logs/f2.bin"
        ⟨true, true, true, false, "h9"⟩).2.provenanceWritten = true ∧
    (processLogFileUpload "logs/f2.bin"
        ⟨true, true, true, false, "h9"⟩).2.verificationCalled = false ∧
    (processLogFileUpload "logs/f2.bin"
        ⟨true, true, true, false, "h9"⟩).2.tempExists = false :=
  processLogFileUpload_tagging_failure_fatal "logs/f2.bin"
    ⟨true, true, true, false, "h9"⟩ (by decide) rfl rfl rfl rfl

/-- C6: for every matching (`logs/`-prefixed) object and every combination
of collaborator successes and failures — normal completion as well as an
exception during hashing, persistence, tagging, or verification — the
temporary local copy no longer exists when the invocation ends. -/
theorem processLogFileUpload_temp_released (objectName : String)
    (env : HandlerEnv) (h : leadsWith "logs/".data objectName.data = true) :
    ((processLogFileUpload objectName env).2).tempExists = false := by
  obtain ⟨d, r, p, t, fh⟩ := env
  cases d <;> cases r <;> cases p <;> cases t <;>
    simp [processLogFileUpload, h, uploadTryBody]

theorem processLogFileUpload_temp_released_witness :
    ((processLogFileUpload "logs/a.bin" ⟨true, true, true, true, "h"⟩).2).tempExists =
      false :=
  processLogFileUpload_temp_released "logs/a.bin" ⟨true, true, true, true, "h"⟩
    (by decide)

/-- C8 counterexample: two distinct calls of `createMockTransaction` (all
three arguments differ) that observe the same `Date.now()` value and the
same random suffix return the same transaction id — uniqueness per call is
not guaranteed by the code, only uniqueness per (timestamp, random) draw. -/
theorem createMockTransaction_collision_cx :
    createMockTransaction "taskA" true "hashA" 123 [5, 6] =
      createMockTransaction "taskB" false "hashB" 123 [5, 6] := rfl

/-- Character-list form of a mock transaction id. -/
theorem createMockTransaction_data (t : String) (res : Bool) (h : String)
    (n : Nat) (r : List Nat) :
    (createMockTransaction t res h n r).data =
      "MOCK_TX_".data ++ ((toBase36 n).data ++ '_' :: r.map base36DigitChar) := by
  simp only [createMockTransaction, strDataAppend]
  simp [List.append_assoc]

/-- C8 (amended): `createMockTransaction` always succeeds and is a pure
function of the timestamp and random suffix; ids from two calls are distinct
whenever the `Date.now()` values or the random suffixes differ — uniqueness
holds per (timestamp, random) environment, not unconditionally per call. -/
theorem createMockTransaction_distinct_env_distinct_ids
    (t₁ t₂ : String) (res₁ res₂ : Bool) (h₁ h₂ : String)
    (n₁ n₂ : Nat) (r₁ r₂ : List Nat)
    (hb₁ : ∀ d ∈ r₁, d < 36) (hb₂ : ∀ d ∈ r₂, d < 36)
    (hne : n₁ ≠ n₂ ∨ r₁ ≠ r₂) :
    createMockTransaction t₁ res₁ h₁ n₁ r₁ ≠
      createMockTransaction t₂ res₂ h₂ n₂ r₂ := by
  intro heq
  have hdata := congrArg String.data heq
  rw [createMockTransaction_data, createMockTransaction_data] at hdata
  have hcancel := List.append_cancel_left hdata
  have hsplit := splitAtSep _ _ _ _ (underscore_not_mem_toBase36 n₁)
    (underscore_not_mem_toBase36 n₂) hcancel
  rcases hne with hne | hne
  · exact hne (toBase36_inj (strDataInj hsplit.1))
  · exact hne (mapDigitChar_inj _ _ hb₁ hb₂ hsplit.2)

theorem createMockTransaction_distinct_env_distinct_ids_witness :
    createMockTransaction "T" true "h" 0 [] ≠
      createMockTransaction "T" true "h" 1 [] :=
  createMockTransaction_distinct_env_distinct_ids "T" "T" true true "h" "h"
    0 1 [] [] (by simp) (by simp) (Or.inl (by decide))

/-- C9: the declarative rules grant read and write on a document path
exactly when the path lies under the `file_hashes` collection and the
request carries an authenticated principal; every other path is denied for
every request and operation. -/
theorem firestoreRules_characterization (auth : Bool) (p : List String)
    (op : AccessOp) :
    allows firestoreRules ⟨auth⟩ p op =
      ((p.head? == some "file_hashes") && auth) := by
  rcases p with _ | ⟨hd, tl⟩
  · cases op <;> simp [allows, firestoreRules, RulePath.matches, RuleCond.eval]
  · by_cases hh : hd = "file_hashes"
    · subst hh
      cases op <;>
        simp [allows, firestoreRules, RulePath.matches, RuleCond.eval]
    · have h1 : (("file_hashes" : String) == hd) = false := by
        simp [beq_eq_false_iff_ne, Ne.symm hh]
      have h2 : ((hd : String) == "file_hashes") = false := by
        simp [beq_eq_false_iff_ne, hh]
      cases op <;>
        simp [allows, firestoreRules, RulePath.matches, RuleCond.eval, h1, h2]

/-- C10: the pipeline's `sendToExternalSystem` passes the constant
verification result `true` into `verifyTask`, so any task document the run
modifies ends with status `verified` and `verificationResult = true`; the
`rejected` terminal status is unreachable through this pipeline. -/
theorem sendToExternalSystem_only_writes_verified_true
    (st : FsState) (now : Nat) (rand : List Nat) (serverTime : Nat)
    (fileHash filePath : String) (md : Option String) (qf : Bool)
    (id : String) (t' : TaskData)
    (hget : getTask
      (sendToExternalSystem st now rand serverTime fileHash filePath md qf).2.1
      id = some t') :
    getTask st id = some t' ∨
      (t'.status = "verified" ∧ t'.verificationResult = some true) := by
  unfold sendToExternalSystem at hget
  cases hex : extractTaskId filePath md (some ⟨st, qf⟩) with
  | none =>
    rw [hex] at hget
    exact Or.inl hget
  | some taskId =>
    rw [hex] at hget
    cases hg2 : getTask st taskId with
    | none =>
      simp only [verifyTask, verifyTaskFinish, hg2] at hget
      exact Or.inl hget
    | some t =>
      by_cases hstat : t.status = "completed"
      · cases hvr : t.verificationResult with
        | some b =>
          simp only [verifyTask, verifyTaskFinish, hg2, hstat, hvr, ne_eq,
            not_true_eq_false, if_false, ite_false] at hget
          exact Or.inl hget
        | none =>
          simp only [verifyTask, verifyTaskFinish, hg2, hstat, hvr, ne_eq,
            not_true_eq_false, if_false, ite_false, ite_true] at hget
          rw [getTask_updateTask] at hget
          by_cases hid : id = taskId
          · rw [if_pos hid, hg2] at hget
            simp only [Option.map_some', Option.some.injEq] at hget
            right
            rw [← hget]
            exact ⟨rfl, rfl⟩
          · rw [if_neg hid] at hget
            exact Or.inl hget
      · simp only [verifyTask, verifyTaskFinish, hg2] at hget
        rw [if_pos (by simpa using hstat)] at hget
        exact Or.inl hget

theorem sendToExternalSystem_only_writes_verified_true_witness :
    getTask [("T5", ⟨"completed", 5, none, none, none, none⟩)] "T5" =
      some ⟨"verified", 5, some true, some "fh", some 77, some "MOCK_TX_0_"⟩ ∨
    (TaskData.status ⟨"verified", 5, some true, some "fh", some 77, some "MOCK_TX_0_"⟩ =
        "verified" ∧
      TaskData.verificationResult
        ⟨"verified", 5, some true, some "fh", some 77, some "MOCK_TX_0_"⟩ =
        some true) :=
  sendToExternalSystem_only_writes_verified_true
    [("T5", ⟨"completed", 5, none, none, none, none⟩)] 0 [] 77 "fh"
    "logs/task-T5-run.bin" none false "T5"
    ⟨"verified", 5, some true, some "fh", some 77, some "MOCK_TX_0_"⟩
    (by decide)
